import Mathlib

/-!
GidToLidMapper (searchcore/proton/reference/gid_to_lid_mapper.cpp)

A shallow embedding of `proton::GidToLidMapper` and of the part of the
document meta store it reads.

* `uint32_t` local ids are natural numbers: the mapper performs no arithmetic on
  them, it only passes them on.
* `_dms` is a reference to a directory object that lives outside the mapper, so
  the directory is part of the state every member function runs in (`World`),
  not a value stored in the mapper.
* `visitor.visit` is a virtual call into caller code: it is a transformer of the
  whole `World`.
-/

namespace proton

/-! ## Data model -/

/-- The type `document::GlobalId`: an opaque fixed-size identifier, used only through equality. -/
structure GlobalId where
  raw : Nat
deriving DecidableEq, Repr

/-- The per-LID record returned by `getRawMetaData`; the mapper reads only its GID. -/
structure RawDocumentMetaData where
  gid : GlobalId
deriving DecidableEq, Repr

/-- Accessor `RawDocumentMetaData::getGid`. -/
def RawDocumentMetaData.getGid (m : RawDocumentMetaData) : GlobalId := m.gid

/-- The state of a `DocumentMetaStore` as seen through the three const members the mapper
calls. The class itself is declared in `documentmetastore.h`, outside this source, so what
its members answer is a parameter:
* `getLid gid lid` is `bool getLid(const GlobalId &, uint32_t &lid) const`: it receives the
  value the caller holds in `lid` and answers the returned flag together with the value left
  in `lid`;
* `beginFrozen` is the sequence of keys that `beginFrozen().foreach_key(f)` hands to `f`,
  in iteration order;
* `getRawMetaData lid` is the record stored for `lid`. -/
structure DocumentMetaStore where
  getLid : GlobalId → Nat → Bool × Nat
  beginFrozen : List Nat
  getRawMetaData : Nat → RawDocumentMetaData

/-- The type `vespalib::GenerationHandler::Guard`: the generation pinned when it was taken. -/
structure Guard where
  generation : Nat
deriving DecidableEq, Repr

/-- The state a member function of the mapper runs in: the directory object that `_dms`
refers to, and `ext`, everything else a visitor can reach. -/
structure World (σ : Type) where
  dms : DocumentMetaStore
  ext : σ

/-- The interface `search::IGidToLidMapperVisitor`: `visit(gid, lid)` is caller code. -/
structure IGidToLidMapperVisitor (σ : Type) where
  visit : GlobalId → Nat → World σ → World σ

/-- The class `GidToLidMapper`: it owns the guard moved into it by the constructor
(`_guard`); `_dms` is the reference to the directory held in the `World`. -/
structure GidToLidMapper where
  guard : Guard
deriving DecidableEq, Repr

namespace GidToLidMapper

/-- The member `GidToLidMapper::mapGidToLid`:
`uint32_t lid = 0; if (_dms.getLid(gid, lid)) return lid; else return 0u;`
The answer is the returned value paired with the state after the call. -/
def mapGidToLid {σ : Type} (_self : GidToLidMapper) (gid : GlobalId) (w : World σ) :
    Nat × World σ :=
  let r := w.dms.getLid gid 0
  if r.1 then (r.2, w) else (0, w)

/-- The member `GidToLidMapper::foreach`:
`dms.beginFrozen().foreach_key([&dms,&visitor](uint32_t lid)
   { visitor.visit(dms.getRawMetaData(lid).getGid(), lid); });`
The frozen iterator is taken once; for each key the metadata is read from the directory as
it is at that moment and the visitor is run. -/
def foreach {σ : Type} (_self : GidToLidMapper) (visitor : IGidToLidMapperVisitor σ)
    (w : World σ) : World σ :=
  w.dms.beginFrozen.foldl
    (fun w lid => visitor.visit (w.dms.getRawMetaData lid).getGid lid w) w

end GidToLidMapper

/-! ## Observing the calls made on a visitor -/

/-- A visitor that appends every `(gid, lid)` it is called with to a log and does nothing
else. -/
def recorder : IGidToLidMapperVisitor (List (GlobalId × Nat)) where
  visit gid lid w := { w with ext := w.ext ++ [(gid, lid)] }

/-- The sequence of `(gid, lid)` pairs that `foreach` passes to a visitor when run on the
directory state `dms`. -/
def visited (m : GidToLidMapper) (dms : DocumentMetaStore) : List (GlobalId × Nat) :=
  (m.foreach recorder ⟨dms, []⟩).ext

/-- The pairs `(getRawMetaData(lid).getGid(), lid)` for the keys of the frozen view. -/
def frozenPairs (dms : DocumentMetaStore) : List (GlobalId × Nat) :=
  dms.beginFrozen.map (fun lid => ((dms.getRawMetaData lid).getGid, lid))

/-- A visitor that leaves the directory as it found it. -/
def IGidToLidMapperVisitor.ReadOnly {σ : Type} (v : IGidToLidMapperVisitor σ) : Prop :=
  ∀ gid lid (w : World σ), (v.visit gid lid w).dms = w.dms

/-! ## The directory -/

/-- Modelled from the spec: the Directory. The class `DocumentMetaStore` and its mutators
are not part of this source; the spec describes the directory as holding the GID to LID
association, per-LID metadata recording at least the GID, and a generation counter that
mutations advance. `keys` are the live LIDs in key order (ascending), `metaData` is the
per-LID record, `generation` the current generation. -/
structure Directory where
  keys : List Nat
  metaData : Nat → RawDocumentMetaData
  generation : Nat

namespace Directory

/-- Modelled from the spec: the directory before any insertion. -/
def empty : Directory := ⟨[], fun _ => ⟨⟨0⟩⟩, 0⟩

/-- Modelled from the spec: `lookup(gid) -> optional(lid)`, the keyed lookup at the
directory's current live state: the live LID whose metadata records `gid`. -/
def lookup (d : Directory) (gid : GlobalId) : Option Nat :=
  d.keys.find? (fun l => decide ((d.metaData l).getGid = gid))

/-- Modelled from the spec: inserting the pair `gid -> lid`. LID `0` is reserved for
"not present", a live LID is not handed out twice and a GID has one LID, so such a request
leaves the directory as it is; otherwise `lid` becomes live, its metadata records `gid`, and
the generation advances. -/
def insert (gid : GlobalId) (lid : Nat) (d : Directory) : Directory :=
  if lid = 0 ∨ lid ∈ d.keys ∨ (d.lookup gid).isSome then d
  else
    { keys := d.keys.orderedInsert (fun a b => a ≤ b) lid
      metaData := fun l => if l = lid then ⟨gid⟩ else d.metaData l
      generation := d.generation + 1 }

/-- Modelled from the spec: removing `gid`. Its LID stops being live (and may be reused by a
later insertion); the generation advances. Removing an absent GID changes nothing. -/
def remove (gid : GlobalId) (d : Directory) : Directory :=
  match d.lookup gid with
  | none => d
  | some lid =>
    { keys := d.keys.erase lid
      metaData := d.metaData
      generation := d.generation + 1 }

/-- Modelled from the spec: `acquireGuard() -> Guard`, a guard bound to the directory's
current generation. -/
def acquireGuard (d : Directory) : Guard := ⟨d.generation⟩

/-- Modelled from the spec: what the three members read by the mapper answer in the
directory state `d`: `getLid` is the lookup at the current live state (it leaves the
caller's `lid` alone when the GID is absent), `beginFrozen` enumerates the live LIDs,
`getRawMetaData` is the per-LID record. None of them receives a guard. -/
def toDms (d : Directory) : DocumentMetaStore where
  getLid gid lid :=
    match d.lookup gid with
    | some l => (true, l)
    | none => (false, lid)
  beginFrozen := d.keys
  getRawMetaData := d.metaData

/-- The consistency the directory maintains: live LIDs are distinct, none is `0`, and two
different live LIDs never record the same GID. -/
def Consistent (d : Directory) : Prop :=
  d.keys.Nodup ∧ 0 ∉ d.keys ∧
    ∀ l₁ ∈ d.keys, ∀ l₂ ∈ d.keys, (d.metaData l₁).getGid = (d.metaData l₂).getGid → l₁ = l₂

end Directory

/-- Modelled from the spec: a mutation of the directory by its writer. -/
inductive Mutation where
  | insert (gid : GlobalId) (lid : Nat)
  | remove (gid : GlobalId)
deriving DecidableEq, Repr

/-- Applying one mutation. -/
def Mutation.apply (m : Mutation) (d : Directory) : Directory :=
  match m with
  | .insert gid lid => d.insert gid lid
  | .remove gid => d.remove gid

/-- Applying a sequence of mutations, first to last. -/
def Directory.run (ms : List Mutation) (d : Directory) : Directory :=
  ms.foldl (fun d m => m.apply d) d

/-- The value `mapGidToLid(gid)` returns on a mapper whose `_dms` refers to a directory in
state `d`. -/
def resolve (m : GidToLidMapper) (d : Directory) (gid : GlobalId) : Nat :=
  (m.mapGidToLid gid (⟨d.toDms, ()⟩ : World Unit)).1

/-- The pairs `foreach` passes to its visitor on a mapper whose `_dms` refers to a directory
in state `d`. -/
def enumerate (m : GidToLidMapper) (d : Directory) : List (GlobalId × Nat) :=
  visited m d.toDms

/-! ## The scenario of the spec -/

/-- The GID `A`. -/
def gidA : GlobalId := ⟨1⟩
/-- The GID `B`. -/
def gidB : GlobalId := ⟨2⟩
/-- The GID `C`. -/
def gidC : GlobalId := ⟨3⟩

/-- Generation 1 of the scenario: `A -> 7` and `B -> 9` inserted. -/
def dir1 : Directory := Directory.run [.insert gidA 7, .insert gidB 9] Directory.empty

/-- The mutation `M` of the scenario: `A` removed, then `C -> 7` inserted. -/
def mutM : List Mutation := [.remove gidA, .insert gidC 7]

/-- Generation 2 of the scenario: `dir1` after `M`. -/
def dir2 : Directory := Directory.run mutM dir1

/-- The facade `F1`, built around a guard taken at generation 1, before `M`. -/
def facade1 : GidToLidMapper := ⟨dir1.acquireGuard⟩

/-- The facade `F2`, built around a guard taken at generation 2, after `M`. -/
def facade2 : GidToLidMapper := ⟨dir2.acquireGuard⟩

/-! ## A directory state given directly by its answers -/

/-- A directory state used to exercise the mapper: `A` is found under LID 7, `B` is reported
found with LID 0, every other GID is reported absent with `lid` overwritten; the frozen keys
are 7 and 9. -/
def sampleDms : DocumentMetaStore where
  getLid gid lid :=
    if gid = gidA then (true, 7) else if gid = gidB then (true, 0) else (false, lid + 42)
  beginFrozen := [7, 9]
  getRawMetaData lid := if lid = 7 then ⟨gidA⟩ else ⟨gidB⟩

/-- The world holding `sampleDms` and nothing else. -/
def sampleWorld : World Unit := ⟨sampleDms, ()⟩

/-- The world holding `sampleDms` and an empty log for `recorder`. -/
def sampleLog : World (List (GlobalId × Nat)) := ⟨sampleDms, []⟩

end proton

namespace proton

/-! ## The mapper over an arbitrary directory state -/

theorem mapGidToLid_fst {σ : Type} (m : GidToLidMapper) (gid : GlobalId) (w : World σ) :
    (m.mapGidToLid gid w).1 = if (w.dms.getLid gid 0).1 then (w.dms.getLid gid 0).2 else 0 := by
  unfold GidToLidMapper.mapGidToLid
  by_cases h : (w.dms.getLid gid 0).1 = true <;> simp [h]

theorem mapGidToLid_snd {σ : Type} (m : GidToLidMapper) (gid : GlobalId) (w : World σ) :
    (m.mapGidToLid gid w).2 = w := by
  unfold GidToLidMapper.mapGidToLid
  by_cases h : (w.dms.getLid gid 0).1 = true <;> simp [h]

theorem foldl_visit_dms {σ : Type} (v : IGidToLidMapperVisitor σ) (hv : v.ReadOnly)
    (keys : List Nat) (w : World σ) :
    (keys.foldl (fun w lid => v.visit (w.dms.getRawMetaData lid).getGid lid w) w).dms
      = w.dms := by
  induction keys generalizing w with
  | nil => rfl
  | cons k ks ih => rw [List.foldl_cons, ih, hv]

theorem foldl_visit_eq {σ : Type} (v : IGidToLidMapperVisitor σ) (hv : v.ReadOnly)
    (dms : DocumentMetaStore) (keys : List Nat) (w : World σ) (hw : w.dms = dms) :
    keys.foldl (fun w lid => v.visit (w.dms.getRawMetaData lid).getGid lid w) w
      = (keys.map (fun lid => ((dms.getRawMetaData lid).getGid, lid))).foldl
          (fun w p => v.visit p.1 p.2 w) w := by
  induction keys generalizing w with
  | nil => rfl
  | cons k ks ih =>
    rw [List.foldl_cons, List.map_cons, List.foldl_cons, hw]
    exact ih _ (by rw [hv, hw])

theorem foreach_dms {σ : Type} (m : GidToLidMapper) (v : IGidToLidMapperVisitor σ)
    (hv : v.ReadOnly) (w : World σ) : (m.foreach v w).dms = w.dms :=
  foldl_visit_dms v hv _ w

theorem foreach_eq_foldl {σ : Type} (m : GidToLidMapper) (v : IGidToLidMapperVisitor σ)
    (hv : v.ReadOnly) (w : World σ) :
    m.foreach v w = (frozenPairs w.dms).foldl (fun w p => v.visit p.1 p.2 w) w :=
  foldl_visit_eq v hv w.dms _ w rfl

theorem recorder_readOnly : recorder.ReadOnly := fun _ _ _ => rfl

theorem foldl_recorder (ps : List (GlobalId × Nat)) (w : World (List (GlobalId × Nat))) :
    ps.foldl (fun w p => recorder.visit p.1 p.2 w) w = ⟨w.dms, w.ext ++ ps⟩ := by
  induction ps generalizing w with
  | nil => simp
  | cons p ps ih => rw [List.foldl_cons, ih]; simp [recorder]

theorem foreach_recorder (m : GidToLidMapper) (w : World (List (GlobalId × Nat))) :
    m.foreach recorder w = ⟨w.dms, w.ext ++ frozenPairs w.dms⟩ := by
  rw [foreach_eq_foldl m recorder recorder_readOnly, foldl_recorder]

theorem visited_eq (m : GidToLidMapper) (dms : DocumentMetaStore) :
    visited m dms = frozenPairs dms := by
  simp [visited, foreach_recorder]

theorem frozenPairs_snd (dms : DocumentMetaStore) :
    (frozenPairs dms).map Prod.snd = dms.beginFrozen := by
  simp [frozenPairs, Function.comp_def]

theorem mem_frozenPairs {dms : DocumentMetaStore} {p : GlobalId × Nat} :
    p ∈ frozenPairs dms ↔ p.2 ∈ dms.beginFrozen ∧ p.1 = (dms.getRawMetaData p.2).getGid := by
  obtain ⟨g, l⟩ := p
  simp only [frozenPairs, List.mem_map, Prod.mk.injEq]
  constructor
  · rintro ⟨k, hk, rfl, rfl⟩; exact ⟨hk, rfl⟩
  · rintro ⟨hk, rfl⟩; exact ⟨l, hk, rfl, rfl⟩

end proton

namespace proton

/-! ## The directory: lookup, consistency, mutations -/

namespace Directory

theorem lookup_eq_none_iff (d : Directory) (gid : GlobalId) :
    d.lookup gid = none ↔ ∀ l ∈ d.keys, (d.metaData l).getGid ≠ gid := by
  simp [lookup]

theorem lookup_some {d : Directory} {gid : GlobalId} {l : Nat} (h : d.lookup gid = some l) :
    l ∈ d.keys ∧ (d.metaData l).getGid = gid := by
  unfold lookup at h
  exact ⟨List.mem_of_find?_eq_some h, by simpa using List.find?_some h⟩

theorem lookup_of_mem {d : Directory} (hc : d.Consistent) {l : Nat} (hl : l ∈ d.keys) :
    d.lookup (d.metaData l).getGid = some l := by
  cases h : d.lookup (d.metaData l).getGid with
  | none => exact absurd rfl ((lookup_eq_none_iff d _).1 h l hl)
  | some k =>
    obtain ⟨hk, hg⟩ := lookup_some h
    rw [hc.2.2 k hk l hl hg]

theorem empty_consistent : empty.Consistent := by
  simp [Consistent, empty]

/-- The conditions under which an insertion takes effect. -/
theorem insert_eq_of_fresh {d : Directory} {gid : GlobalId} {lid : Nat}
    (h0 : lid ≠ 0) (hk : lid ∉ d.keys) (hg : d.lookup gid = none) :
    d.insert gid lid =
      { keys := d.keys.orderedInsert (fun a b => a ≤ b) lid
        metaData := fun l => if l = lid then ⟨gid⟩ else d.metaData l
        generation := d.generation + 1 } := by
  unfold insert
  rw [if_neg]
  simp [h0, hk, hg]

theorem insert_eq_self_or_fresh (d : Directory) (gid : GlobalId) (lid : Nat) :
    d.insert gid lid = d ∨ (lid ≠ 0 ∧ lid ∉ d.keys ∧ d.lookup gid = none) := by
  by_cases h : lid = 0 ∨ lid ∈ d.keys ∨ (d.lookup gid).isSome
  · left; unfold insert; rw [if_pos h]
  · right
    simp only [not_or] at h
    refine ⟨h.1, h.2.1, ?_⟩
    cases hl : d.lookup gid with
    | none => rfl
    | some k => exact absurd (by simp [hl]) h.2.2

theorem insert_consistent {d : Directory} (hc : d.Consistent) (gid : GlobalId) (lid : Nat) :
    (d.insert gid lid).Consistent := by
  rcases insert_eq_self_or_fresh d gid lid with h | ⟨h0, hk, hg⟩
  · rw [h]; exact hc
  · rw [insert_eq_of_fresh h0 hk hg]
    have hg' := (lookup_eq_none_iff d gid).1 hg
    refine ⟨?_, ?_, ?_⟩
    · exact (List.perm_orderedInsert _ lid d.keys).nodup_iff.2 (List.nodup_cons.2 ⟨hk, hc.1⟩)
    · simp only [List.mem_orderedInsert, not_or]
      exact ⟨fun h => h0 h.symm, hc.2.1⟩
    · intro l₁ h₁ l₂ h₂ he
      simp only [List.mem_orderedInsert] at h₁ h₂
      rcases h₁ with rfl | h₁ <;> rcases h₂ with rfl | h₂
      · rfl
      · have hne : l₂ ≠ l₁ := fun e => hk (e ▸ h₂)
        simp only [if_true, if_neg hne] at he
        exact absurd he.symm (hg' l₂ h₂)
      · have hne : l₁ ≠ l₂ := fun e => hk (e ▸ h₁)
        simp only [if_true, if_neg hne] at he
        exact absurd he (hg' l₁ h₁)
      · have hne₁ : l₁ ≠ lid := fun e => hk (e ▸ h₁)
        have hne₂ : l₂ ≠ lid := fun e => hk (e ▸ h₂)
        simp only [if_neg hne₁, if_neg hne₂] at he
        exact hc.2.2 l₁ h₁ l₂ h₂ he

theorem remove_consistent {d : Directory} (hc : d.Consistent) (gid : GlobalId) :
    (d.remove gid).Consistent := by
  unfold remove
  cases h : d.lookup gid with
  | none => exact hc
  | some lid =>
    refine ⟨hc.1.erase lid, fun h0 => hc.2.1 (List.mem_of_mem_erase h0), ?_⟩
    intro l₁ h₁ l₂ h₂ he
    exact hc.2.2 l₁ (List.mem_of_mem_erase h₁) l₂ (List.mem_of_mem_erase h₂) he

theorem apply_consistent {d : Directory} (hc : d.Consistent) (m : Mutation) :
    (m.apply d).Consistent := by
  cases m with
  | insert gid lid => exact insert_consistent hc gid lid
  | remove gid => exact remove_consistent hc gid

theorem run_consistent (ms : List Mutation) {d : Directory} (hc : d.Consistent) :
    (run ms d).Consistent := by
  induction ms generalizing d with
  | nil => exact hc
  | cons m ms ih => exact ih (apply_consistent hc m)

theorem run_append (ms ns : List Mutation) (d : Directory) :
    run (ms ++ ns) d = run ns (run ms d) := by
  simp [run, List.foldl_append]

/-- After an insertion that takes effect, the GID is found under the new LID. -/
theorem lookup_insert {d : Directory} (hc : d.Consistent) {gid : GlobalId} {lid : Nat}
    (h0 : lid ≠ 0) (hk : lid ∉ d.keys) (hg : d.lookup gid = none) :
    (d.insert gid lid).lookup gid = some lid ∧ lid ∈ (d.insert gid lid).keys ∧
      ((d.insert gid lid).metaData lid).getGid = gid := by
  have hc' := insert_consistent hc gid lid
  have hmem : lid ∈ (d.insert gid lid).keys := by
    rw [insert_eq_of_fresh h0 hk hg]; simp
  have hmeta : ((d.insert gid lid).metaData lid).getGid = gid := by
    rw [insert_eq_of_fresh h0 hk hg]; simp [RawDocumentMetaData.getGid]
  refine ⟨?_, hmem, hmeta⟩
  have := lookup_of_mem hc' hmem
  rwa [hmeta] at this

/-- After a removal, the GID is not found. -/
theorem lookup_remove {d : Directory} (hc : d.Consistent) (gid : GlobalId) :
    (d.remove gid).lookup gid = none := by
  unfold remove
  cases h : d.lookup gid with
  | none => exact h
  | some lid =>
    obtain ⟨hl, hg⟩ := lookup_some h
    rw [lookup_eq_none_iff]
    intro l hl' he
    have hmem := (hc.1.mem_erase_iff).1 hl'
    exact hmem.1 (hc.2.2 l hmem.2 lid hl (he.trans hg.symm))

/-- A mutation that is not an insertion of `gid` does not make `gid` present. -/
theorem lookup_apply_none {d : Directory} {gid : GlobalId} (hg : d.lookup gid = none)
    (m : Mutation) (hm : ∀ lid, m ≠ .insert gid lid) : (m.apply d).lookup gid = none := by
  have hg' := (lookup_eq_none_iff d gid).1 hg
  cases m with
  | insert g lid =>
    have hne : g ≠ gid := fun e => hm lid (by rw [e])
    show (d.insert g lid).lookup gid = none
    rcases insert_eq_self_or_fresh d g lid with h | ⟨h0, hk, hgl⟩
    · rw [h]; exact hg
    · rw [insert_eq_of_fresh h0 hk hgl, lookup_eq_none_iff]
      intro l hl
      simp only [List.mem_orderedInsert] at hl
      rcases hl with rfl | hl
      · simpa [RawDocumentMetaData.getGid] using hne
      · have hne' : l ≠ lid := fun e => hk (e ▸ hl)
        simpa [hne'] using hg' l hl
  | remove g =>
    show (d.remove g).lookup gid = none
    unfold remove
    cases h : d.lookup g with
    | none => exact hg
    | some lid =>
      rw [lookup_eq_none_iff]
      intro l hl
      exact hg' l (List.mem_of_mem_erase hl)

theorem lookup_run_none (ms : List Mutation) {d : Directory} {gid : GlobalId}
    (hg : d.lookup gid = none) (hm : ∀ lid, Mutation.insert gid lid ∉ ms) :
    (run ms d).lookup gid = none := by
  induction ms generalizing d with
  | nil => exact hg
  | cons m ms ih =>
    refine ih (lookup_apply_none hg m ?_) ?_
    · intro lid e; exact hm lid (by rw [e]; exact List.mem_cons_self _ _)
    · intro lid h; exact hm lid (List.mem_cons_of_mem _ h)

end Directory

theorem resolve_eq (m : GidToLidMapper) (d : Directory) (gid : GlobalId) :
    resolve m d gid = (d.lookup gid).getD 0 := by
  unfold resolve
  rw [mapGidToLid_fst]
  cases h : d.lookup gid <;> simp [Directory.toDms, h]

theorem enumerate_eq (m : GidToLidMapper) (d : Directory) :
    enumerate m d = d.keys.map (fun l => ((d.metaData l).getGid, l)) := by
  simp [enumerate, visited_eq, frozenPairs, Directory.toDms]

theorem mem_enumerate {m : GidToLidMapper} {d : Directory} {gid : GlobalId} {lid : Nat} :
    (gid, lid) ∈ enumerate m d ↔ lid ∈ d.keys ∧ gid = (d.metaData lid).getGid := by
  unfold enumerate
  rw [visited_eq, mem_frozenPairs]
  rfl

end proton

namespace proton

/-! ## Lookup -/

/-- C1: for every directory state and every GID, mapGidToLid returns the LID that getLid
left in its output when getLid reports success, and returns the sentinel 0 when getLid
reports that the GID is absent. -/
theorem mapGidToLid_returns_lid_or_sentinel {σ : Type} (m : GidToLidMapper) (w : World σ)
    (gid : GlobalId) :
    (∀ l, w.dms.getLid gid 0 = (true, l) → (m.mapGidToLid gid w).1 = l) ∧
    (∀ l, w.dms.getLid gid 0 = (false, l) → (m.mapGidToLid gid w).1 = 0) := by
  constructor <;> intro l h <;> simp [mapGidToLid_fst, h]

theorem mapGidToLid_returns_lid_or_sentinel_witness :
    (sampleWorld.dms.getLid gidA 0 = (true, 7) ∧
      (facade1.mapGidToLid gidA sampleWorld).1 = 7) ∧
    (sampleWorld.dms.getLid gidC 0 = (false, 42) ∧
      (facade1.mapGidToLid gidC sampleWorld).1 = 0) :=
  ⟨⟨by decide, (mapGidToLid_returns_lid_or_sentinel facade1 sampleWorld gidA).1 7 (by decide)⟩,
   ⟨by decide, (mapGidToLid_returns_lid_or_sentinel facade1 sampleWorld gidC).2 42 (by decide)⟩⟩

/-- C10: mapGidToLid returns a non-zero value l exactly when getLid reports success and
leaves l, with l non-zero, in its output; when getLid reports failure the result is 0
whatever getLid left in its output, and a successful lookup with LID 0 gives the same
result 0 as an absent GID. -/
theorem mapGidToLid_nonzero_iff {σ : Type} (m : GidToLidMapper) (w : World σ)
    (gid : GlobalId) :
    (∀ l, ((m.mapGidToLid gid w).1 = l ∧ l ≠ 0) ↔ (w.dms.getLid gid 0 = (true, l) ∧ l ≠ 0)) ∧
    (∀ l, w.dms.getLid gid 0 = (false, l) → (m.mapGidToLid gid w).1 = 0) ∧
    (w.dms.getLid gid 0 = (true, 0) → (m.mapGidToLid gid w).1 = 0) := by
  refine ⟨fun l => ?_, fun l h => by simp [mapGidToLid_fst, h],
    fun h => by simp [mapGidToLid_fst, h]⟩
  rw [mapGidToLid_fst]
  rcases hr : w.dms.getLid gid 0 with ⟨b, k⟩
  cases b
  · simp only [Bool.false_eq_true, if_false, Prod.mk.injEq, false_and]
    constructor
    · rintro ⟨h, h0⟩; exact absurd h.symm h0
    · exact False.elim
  · simp

theorem mapGidToLid_nonzero_iff_witness :
    (((facade1.mapGidToLid gidA sampleWorld).1 = 7 ∧ 7 ≠ 0) ↔
      (sampleWorld.dms.getLid gidA 0 = (true, 7) ∧ 7 ≠ 0)) ∧
    (sampleWorld.dms.getLid gidC 0 = (false, 42) ∧
      (facade1.mapGidToLid gidC sampleWorld).1 = 0) ∧
    (sampleWorld.dms.getLid gidB 0 = (true, 0) ∧
      (facade1.mapGidToLid gidB sampleWorld).1 = 0) :=
  ⟨(mapGidToLid_nonzero_iff facade1 sampleWorld gidA).1 7,
   ⟨by decide, (mapGidToLid_nonzero_iff facade1 sampleWorld gidC).2.1 42 (by decide)⟩,
   ⟨by decide, (mapGidToLid_nonzero_iff facade1 sampleWorld gidB).2.2 (by decide)⟩⟩

/-! ## Enumeration -/

/-- C2: for every directory state, the calls foreach makes on the visitor are, in the
iteration order of the frozen key set, one call per key, each with the GID that
getRawMetaData records for that key: every key of a duplicate-free key set is visited
exactly once and no other LID is visited, and for an empty key set the visitor is not
invoked. For any visitor that leaves the directory alone, foreach is the visitor run over
exactly these pairs. -/
theorem foreach_visits_frozen_keys (m : GidToLidMapper) (dms : DocumentMetaStore) :
    visited m dms = dms.beginFrozen.map (fun lid => ((dms.getRawMetaData lid).getGid, lid)) ∧
    (visited m dms).map Prod.snd = dms.beginFrozen ∧
    (∀ p ∈ visited m dms, p.1 = (dms.getRawMetaData p.2).getGid) ∧
    (dms.beginFrozen.Nodup → ∀ lid,
      ((visited m dms).map Prod.snd).count lid = if lid ∈ dms.beginFrozen then 1 else 0) ∧
    (dms.beginFrozen = [] → visited m dms = []) ∧
    (∀ (σ : Type) (v : IGidToLidMapperVisitor σ) (w : World σ), w.dms = dms → v.ReadOnly →
      m.foreach v w =
        (dms.beginFrozen.map (fun lid => ((dms.getRawMetaData lid).getGid, lid))).foldl
          (fun w p => v.visit p.1 p.2 w) w) ∧
    (∀ (σ : Type) (v : IGidToLidMapperVisitor σ) (w : World σ), w.dms = dms →
      dms.beginFrozen = [] → m.foreach v w = w) := by
  have hv := visited_eq m dms
  refine ⟨hv, ?_, ?_, ?_, ?_, ?_, ?_⟩
  · rw [hv, frozenPairs_snd]
  · intro p hp
    rw [hv] at hp
    exact (mem_frozenPairs.1 hp).2
  · intro hn lid
    rw [hv, frozenPairs_snd]
    exact List.count_eq_of_nodup hn
  · intro h
    rw [hv]
    simp [frozenPairs, h]
  · intro σ v w hw hro
    subst hw
    exact foreach_eq_foldl m v hro w
  · intro σ v w hw h
    subst hw
    simp [GidToLidMapper.foreach, h]

theorem foreach_visits_frozen_keys_witness :
    visited facade1 sampleDms = [(gidA, 7), (gidB, 9)] ∧
    (sampleDms.beginFrozen.Nodup ∧
      ((visited facade1 sampleDms).map Prod.snd).count 7 = 1 ∧
      ((visited facade1 sampleDms).map Prod.snd).count 8 = 0) ∧
    (sampleWorld.dms = sampleDms ∧ recorder.ReadOnly ∧
      (facade1.foreach recorder ⟨sampleDms, []⟩).ext = [(gidA, 7), (gidB, 9)]) :=
  ⟨(foreach_visits_frozen_keys facade1 sampleDms).1,
   ⟨by decide,
    (foreach_visits_frozen_keys facade1 sampleDms).2.2.2.1 (by decide) 7,
    (foreach_visits_frozen_keys facade1 sampleDms).2.2.2.1 (by decide) 8⟩,
   ⟨rfl, recorder_readOnly,
    congrArg World.ext
      ((foreach_visits_frozen_keys facade1 sampleDms).2.2.2.2.2.1 _ recorder ⟨sampleDms, []⟩
        rfl recorder_readOnly)⟩⟩

/-- C7: calling foreach twice on the same facade delivers the same sequence of (GID, LID)
pairs to the visitor both times: a recording visitor logs the same sequence in the second
call as in the first, and any visitor that leaves the directory alone is run over the same
pairs in the same order twice. -/
theorem foreach_twice_same_sequence (m : GidToLidMapper) (dms : DocumentMetaStore) :
    (m.foreach recorder ⟨(m.foreach recorder ⟨dms, []⟩).dms, []⟩).ext
      = (m.foreach recorder ⟨dms, []⟩).ext ∧
    (m.foreach recorder (m.foreach recorder ⟨dms, []⟩)).ext
      = (m.foreach recorder ⟨dms, []⟩).ext ++ (m.foreach recorder ⟨dms, []⟩).ext ∧
    (∀ (σ : Type) (v : IGidToLidMapperVisitor σ) (w : World σ), w.dms = dms → v.ReadOnly →
      m.foreach v (m.foreach v w) =
        (frozenPairs dms).foldl (fun w p => v.visit p.1 p.2 w)
          ((frozenPairs dms).foldl (fun w p => v.visit p.1 p.2 w) w)) := by
  refine ⟨?_, ?_, ?_⟩
  · simp [foreach_recorder]
  · simp [foreach_recorder]
  · intro σ v w hw hro
    subst hw
    rw [foreach_eq_foldl m v hro (m.foreach v w), foreach_dms m v hro w,
      foreach_eq_foldl m v hro w]

theorem foreach_twice_same_sequence_witness :
    ((facade1.foreach recorder ⟨(facade1.foreach recorder ⟨sampleDms, []⟩).dms, []⟩).ext
      = (facade1.foreach recorder ⟨sampleDms, []⟩).ext ∧
     (facade1.foreach recorder ⟨sampleDms, []⟩).ext = [(gidA, 7), (gidB, 9)]) ∧
    (sampleLog.dms = sampleDms ∧ recorder.ReadOnly ∧
      facade1.foreach recorder (facade1.foreach recorder sampleLog) =
        (frozenPairs sampleDms).foldl (fun w p => recorder.visit p.1 p.2 w)
          ((frozenPairs sampleDms).foldl (fun w p => recorder.visit p.1 p.2 w) sampleLog)) :=
  ⟨⟨(foreach_twice_same_sequence facade1 sampleDms).1, by decide⟩,
   ⟨rfl, recorder_readOnly,
    (foreach_twice_same_sequence facade1 sampleDms).2.2 _ recorder sampleLog rfl
      recorder_readOnly⟩⟩

/-! ## Frame -/

/-- C9: mapGidToLid and foreach leave the directory as it was: mapGidToLid returns the state
it was given, foreach with a visitor that does not itself change the directory returns a state
with the same directory (same lookups, same frozen keys, same per-LID metadata), and a
second mapGidToLid with the same GID returns the same value as the first. -/
theorem mapper_no_side_effects {σ : Type} (m : GidToLidMapper) (w : World σ) (gid : GlobalId)
    (v : IGidToLidMapperVisitor σ) (hv : v.ReadOnly) :
    (m.mapGidToLid gid w).2 = w ∧
    (m.foreach v w).dms = w.dms ∧
    (m.mapGidToLid gid (m.foreach v w)).1 = (m.mapGidToLid gid w).1 ∧
    (m.mapGidToLid gid (m.mapGidToLid gid w).2).1 = (m.mapGidToLid gid w).1 := by
  refine ⟨mapGidToLid_snd m gid w, foreach_dms m v hv w, ?_, ?_⟩
  · rw [mapGidToLid_fst, mapGidToLid_fst, foreach_dms m v hv w]
  · rw [mapGidToLid_snd]

theorem mapper_no_side_effects_witness :
    recorder.ReadOnly ∧
    (facade1.mapGidToLid gidA sampleLog).2 = sampleLog ∧
    (facade1.foreach recorder sampleLog).dms = sampleLog.dms ∧
    (facade1.mapGidToLid gidA (facade1.foreach recorder sampleLog)).1
      = (facade1.mapGidToLid gidA sampleLog).1 ∧
    (facade1.mapGidToLid gidA (facade1.mapGidToLid gidA sampleLog).2).1
      = (facade1.mapGidToLid gidA sampleLog).1 :=
  ⟨recorder_readOnly,
   mapper_no_side_effects facade1 sampleLog gidA recorder recorder_readOnly⟩

end proton

namespace proton

/-! ## The mapper over the directory: round trip, visibility, sentinel -/

/-- C3: round trip. On a directory reached from the empty one by any sequence of mutations,
for every facade and every (gid, lid) pair that foreach passes to the visitor, mapGidToLid of
that gid on the same facade returns exactly that lid. -/
theorem foreach_then_mapGidToLid (ms : List Mutation) (d : Directory)
    (hd : d = Directory.run ms Directory.empty) (m : GidToLidMapper) (gid : GlobalId)
    (lid : Nat) (h : (gid, lid) ∈ enumerate m d) : resolve m d gid = lid := by
  have hc : d.Consistent := hd ▸ Directory.run_consistent ms Directory.empty_consistent
  obtain ⟨hl, hg⟩ := mem_enumerate.1 h
  rw [resolve_eq, hg, Directory.lookup_of_mem hc hl]
  rfl

theorem foreach_then_mapGidToLid_witness :
    dir1 = Directory.run [.insert gidA 7, .insert gidB 9] Directory.empty ∧
    (gidB, 9) ∈ enumerate facade1 dir1 ∧ resolve facade1 dir1 gidB = 9 :=
  ⟨rfl, by decide,
   foreach_then_mapGidToLid [.insert gidA 7, .insert gidB 9] dir1 rfl facade1 gidB 9
     (by decide)⟩

/-- C6: visibility after acquisition. On a directory reached by any sequence of mutations,
a facade built around a guard acquired after a mutation M, with no later mutation, reflects
M: if M inserted gid under the LID lid (lid is not 0, was not live and gid was not present),
mapGidToLid of gid is lid and foreach passes (gid, lid); if M removed gid, mapGidToLid of gid
is 0 and foreach passes no pair with that gid. -/
theorem visibility_after_acquisition (ms : List Mutation) (d : Directory)
    (hd : d = Directory.run ms Directory.empty) (gid : GlobalId) (lid : Nat) :
    (lid ≠ 0 → lid ∉ d.keys → d.lookup gid = none →
      resolve ⟨(d.insert gid lid).acquireGuard⟩ (d.insert gid lid) gid = lid ∧
      (gid, lid) ∈ enumerate ⟨(d.insert gid lid).acquireGuard⟩ (d.insert gid lid)) ∧
    (resolve ⟨(d.remove gid).acquireGuard⟩ (d.remove gid) gid = 0 ∧
      ∀ l, (gid, l) ∉ enumerate ⟨(d.remove gid).acquireGuard⟩ (d.remove gid)) := by
  have hc : d.Consistent := hd ▸ Directory.run_consistent ms Directory.empty_consistent
  refine ⟨fun h0 hk hg => ?_, ?_, ?_⟩
  · obtain ⟨h1, h2, h3⟩ := Directory.lookup_insert hc h0 hk hg
    exact ⟨by rw [resolve_eq, h1]; rfl, mem_enumerate.2 ⟨h2, h3.symm⟩⟩
  · rw [resolve_eq, Directory.lookup_remove hc gid]
    rfl
  · intro l hl
    obtain ⟨h1, h2⟩ := mem_enumerate.1 hl
    exact (Directory.lookup_eq_none_iff _ _).1 (Directory.lookup_remove hc gid) l h1 h2.symm

theorem visibility_after_acquisition_witness :
    dir1 = Directory.run [.insert gidA 7, .insert gidB 9] Directory.empty ∧
    ((4 : Nat) ≠ 0 ∧ 4 ∉ dir1.keys ∧ dir1.lookup gidC = none ∧
      resolve ⟨(dir1.insert gidC 4).acquireGuard⟩ (dir1.insert gidC 4) gidC = 4 ∧
      (gidC, 4) ∈ enumerate ⟨(dir1.insert gidC 4).acquireGuard⟩ (dir1.insert gidC 4)) ∧
    (resolve ⟨(dir1.remove gidA).acquireGuard⟩ (dir1.remove gidA) gidA = 0 ∧
      ∀ l, (gidA, l) ∉ enumerate ⟨(dir1.remove gidA).acquireGuard⟩ (dir1.remove gidA)) :=
  ⟨rfl,
   ⟨by decide, by decide, by decide,
    (visibility_after_acquisition [.insert gidA 7, .insert gidB 9] dir1 rfl gidC 4).1
      (by decide) (by decide) (by decide)⟩,
   (visibility_after_acquisition [.insert gidA 7, .insert gidB 9] dir1 rfl gidA 0).2⟩

/-- C8: sentinel. mapGidToLid returns 0 for a GID that no mutation ever inserted, and for a
GID that was removed (after whatever came before, its insertion included) and not inserted
again, on any facade, in particular one whose guard was acquired after the removal. The
result is the plain value 0. -/
theorem sentinel_for_absent_gid (m : GidToLidMapper) (gid : GlobalId) :
    (∀ ms : List Mutation, (∀ lid, Mutation.insert gid lid ∉ ms) →
      resolve m (Directory.run ms Directory.empty) gid = 0) ∧
    (∀ pre post : List Mutation, (∀ lid, Mutation.insert gid lid ∉ post) →
      resolve m (Directory.run (pre ++ Mutation.remove gid :: post) Directory.empty) gid
        = 0) := by
  constructor
  · intro ms hms
    rw [resolve_eq, Directory.lookup_run_none ms (by simp [Directory.lookup, Directory.empty])
      hms]
    rfl
  · intro pre post hpost
    have hc := Directory.run_consistent pre Directory.empty_consistent
    have hrm := Directory.lookup_remove hc gid
    have hrun : Directory.run (pre ++ Mutation.remove gid :: post) Directory.empty
        = Directory.run post ((Directory.run pre Directory.empty).remove gid) := by
      rw [Directory.run_append]
      rfl
    rw [resolve_eq, hrun, Directory.lookup_run_none post hrm hpost]
    rfl

theorem sentinel_for_absent_gid_witness :
    ((∀ lid, Mutation.insert gidC lid ∉ [Mutation.insert gidA 7, Mutation.insert gidB 9]) ∧
      resolve facade1 dir1 gidC = 0) ∧
    ((∀ lid, Mutation.insert gidA lid ∉ [Mutation.insert gidC 7]) ∧
      resolve facade2
        (Directory.run ([.insert gidA 7, .insert gidB 9] ++ Mutation.remove gidA ::
          [.insert gidC 7]) Directory.empty) gidA = 0) :=
  ⟨⟨fun lid => by simp [gidA, gidB, gidC],
    (sentinel_for_absent_gid facade1 gidC).1 [.insert gidA 7, .insert gidB 9]
      (fun lid => by simp [gidA, gidB, gidC])⟩,
   ⟨fun lid => by simp [gidA, gidC],
    (sentinel_for_absent_gid facade2 gidA).2 [.insert gidA 7, .insert gidB 9]
      [.insert gidC 7] (fun lid => by simp [gidA, gidC])⟩⟩

/-! ## The guard and later mutations -/

/-- C4, counterexample: in the scenario, after `M` the facade built before `M` does not
return for every GID what it returned before `M`; it reports neither `A -> 7` nor
`C -> 0`. -/
theorem snapshot_lookup_counterexample :
    ¬ (∀ gid, resolve facade1 dir2 gid = resolve facade1 dir1 gid) ∧
    resolve facade1 dir2 gidA ≠ 7 ∧ resolve facade1 dir2 gidC ≠ 0 :=
  ⟨fun h => absurd (h gidA) (by decide), by decide, by decide⟩

/-- C4, as amended: for a facade constructed from a guard acquired before a mutation M,
mapGidToLid after M returns the lookup in the directory as it is after M (0 when absent),
which is what a facade built after M returns; it equals the value before M for every GID
whose lookup M leaves unchanged. In the scenario F1 reports A as 7 and C as 0 before M, and
A as 0, C as 7 and B as 9 after M. -/
theorem mapGidToLid_reads_current_directory (d : Directory) (ms : List Mutation)
    (gid : GlobalId) :
    resolve ⟨d.acquireGuard⟩ (d.run ms) gid = ((d.run ms).lookup gid).getD 0 ∧
    resolve ⟨d.acquireGuard⟩ (d.run ms) gid
      = resolve ⟨(d.run ms).acquireGuard⟩ (d.run ms) gid ∧
    ((d.run ms).lookup gid = d.lookup gid →
      resolve ⟨d.acquireGuard⟩ (d.run ms) gid = resolve ⟨d.acquireGuard⟩ d gid) ∧
    (resolve facade1 dir1 gidA = 7 ∧ resolve facade1 dir1 gidC = 0) ∧
    (resolve facade1 dir2 gidA = 0 ∧ resolve facade1 dir2 gidC = 7 ∧
      resolve facade1 dir2 gidB = 9) := by
  refine ⟨resolve_eq _ _ _, by rw [resolve_eq, resolve_eq], fun h => ?_,
    ⟨by decide, by decide⟩, ⟨by decide, by decide, by decide⟩⟩
  rw [resolve_eq, resolve_eq, h]

theorem mapGidToLid_reads_current_directory_witness :
    (dir1.run mutM).lookup gidB = dir1.lookup gidB ∧
    resolve ⟨dir1.acquireGuard⟩ (dir1.run mutM) gidB = resolve ⟨dir1.acquireGuard⟩ dir1 gidB :=
  ⟨by decide, (mapGidToLid_reads_current_directory dir1 mutM gidB).2.2.1 (by decide)⟩

/-- C5, counterexample: in the scenario, after `M` foreach over the facade built before `M`
does not yield the pairs `(A,7), (B,9)` that were live before `M`: it yields `(C,7), (B,9)`,
with the GID now recorded for the reused LID 7. -/
theorem snapshot_enumeration_counterexample :
    enumerate facade1 dir1 = [(gidA, 7), (gidB, 9)] ∧
    enumerate facade1 dir2 = [(gidC, 7), (gidB, 9)] ∧
    ¬ (∀ p, p ∈ enumerate facade1 dir2 ↔ p ∈ [(gidA, 7), (gidB, 9)]) :=
  ⟨by decide, by decide, fun h => absurd ((h (gidA, 7)).2 (by decide)) (by decide)⟩

/-- C5, as amended: for a facade constructed from a guard acquired before a mutation M,
foreach after M yields exactly the pairs live after M, each LID with the GID recorded for it
after M, which is the sequence a facade built after M yields. In the scenario foreach over
F1 yields (A,7), (B,9) before M, and after M both F1 and F2 yield (C,7), (B,9). -/
theorem foreach_reads_current_directory (d : Directory) (ms : List Mutation) :
    enumerate ⟨d.acquireGuard⟩ (d.run ms)
      = (d.run ms).keys.map (fun l => (((d.run ms).metaData l).getGid, l)) ∧
    enumerate ⟨d.acquireGuard⟩ (d.run ms)
      = enumerate ⟨(d.run ms).acquireGuard⟩ (d.run ms) ∧
    enumerate facade1 dir1 = [(gidA, 7), (gidB, 9)] ∧
    enumerate facade1 dir2 = [(gidC, 7), (gidB, 9)] ∧
    enumerate facade2 dir2 = [(gidC, 7), (gidB, 9)] := by
  refine ⟨enumerate_eq _ _, by rw [enumerate_eq, enumerate_eq], by decide, by decide,
    by decide⟩

end proton
